import Mathlib

/-!
Verification of the revman pricing-analysis core
(`src/revman/tools/pricing_analysis_tools.py`): price-change categorization
(`PriceCategorizationTool._run`), historical trend analysis
(`HistoricalPriceAnalysisTool._run`), price forecasting
(`PriceForecastingTool._run`) and anomaly ranking
(`AnomalyDetectionTool._run`).

Modelling conventions:
- Python floats are modelled as exact rationals (reals in the forecaster,
  where the exponential recency weights force it).  The final
  `round(x, 2)` applied to emitted numbers is display rounding and is not
  modelled; values are carried exactly.
- NaN / infinity semantics of float arithmetic are modelled explicitly
  (`FVal`) exactly where pandas `pct_change` can produce them.
- Python stable sorts (`DataFrame.sort_values`, `list.sort`) are modelled
  with the stable `List.insertionSort`.
-/

namespace Revman

/-- Raw scalar cell value as seen by `safe_float`: Python `None`, a finite
numeric value, a string parsing to a number, a non-numeric string, or an IEEE
NaN / infinity. -/
inductive PyVal where
  | pynone
  | num (q : ℚ)
  | numStr (q : ℚ)
  | badStr (s : String)
  | nanVal
  | infVal
  | negInfVal
deriving DecidableEq

/-- `safe_float(value, default)` from the source: `None` yields the default;
`float(value)` yields the numeric value of a number or numeric string; NaN and
infinities after conversion yield the default; a `ValueError`/`TypeError`
(non-numeric string) yields the default. -/
def safe_float (value : PyVal) (default : ℚ) : ℚ :=
  match value with
  | .pynone => default
  | .num q => q
  | .numStr q => q
  | .badStr _ => default
  | .nanVal => default
  | .infVal => default
  | .negInfVal => default

/-- A `PyVal` that `float()` coerces to a finite number. -/
def coercesToNum : PyVal → Prop
  | .num _ => True
  | .numStr _ => True
  | _ => False

instance : DecidablePred coercesToNum := by
  intro v
  cases v <;> simp [coercesToNum] <;> infer_instance

/-- Python `str.strip()`: drop leading and trailing whitespace. -/
def pyStrip (s : String) : String :=
  ⟨((s.data.dropWhile Char.isWhitespace).reverse.dropWhile Char.isWhitespace).reverse⟩

/-- One row of the price-change sheet handed to `PriceCategorizationTool._run`
after pandas parsing (`skiprows=7`, column-name cleanup, drop of all-empty
rows).  `old_price` / `new_price` are the raw cells fed to `safe_float`. -/
structure CatRow where
  product_name : String
  pack_size : String
  type_of_sale : String
  old_price : PyVal
  new_price : PyVal
deriving DecidableEq

/-- One categorized `product_entry` dict from the source.  `price_ratio_pct`
and `note` model dictionary keys that are only added on some branches
(`none` = key absent). -/
structure ProductEntry where
  product : String
  pack_size : String
  old_price : ℚ
  new_price : ℚ
  price_change : ℚ
  price_ratio_pct : Option ℚ
  note : Option String
deriving DecidableEq

/-- The five category lists built by `PriceCategorizationTool._run`. -/
inductive Category where
  | licensee
  | newSku
  | permanent
  | beginLTO
  | endLTO
deriving DecidableEq

/-- Per-row body of the categorization loop: strip the string cells, coerce the
prices with `safe_float` (default `0.0`), build the product entry, and decide
which category list (if any) the entry is appended to.  `none` means the row
matches no `Type of Sale` branch and is appended to no list. -/
def categorizeRow (row : CatRow) : Option (Category × ProductEntry) :=
  let product := pyStrip row.product_name
  let pack_size := pyStrip row.pack_size
  let type_of_sale := pyStrip row.type_of_sale
  let old_price := safe_float row.old_price 0
  let new_price := safe_float row.new_price 0
  let entry : ProductEntry :=
    { product := product, pack_size := pack_size, old_price := old_price,
      new_price := new_price, price_change := new_price - old_price,
      price_ratio_pct := none, note := none }
  if type_of_sale = "TBS - Licensee" then some (.licensee, entry)
  else if type_of_sale = "New SKU" then some (.newSku, entry)
  else if type_of_sale = "TBS – Retail Price" ∨ type_of_sale = "TBS - Retail Price" then
    if 0 < old_price then
      let ratio_pct := new_price / old_price * 100
      let entry2 := { entry with price_ratio_pct := some ratio_pct }
      if ratio_pct < 96 then some (.beginLTO, entry2)
      else if 104 < ratio_pct then some (.endLTO, entry2)
      else some (.permanent, entry2)
    else
      let entryZero := { entry with
        price_ratio_pct := some 0,
        note := some "Zero old price - categorized as permanent change" }
      some (.permanent, entryZero)
  else none

/-- Category assigned to a row, if any. -/
def categoryOf (row : CatRow) : Option Category :=
  (categorizeRow row).map Prod.fst

/-- The `price_ratio = (new_price / old_price) * 100` computed in the retail
branch (after `safe_float` coercion). -/
def ratioPctOf (row : CatRow) : ℚ :=
  safe_float row.new_price 0 / safe_float row.old_price 0 * 100

/-- Entries appended to the list of category `c`, in row order. -/
def entriesOf (c : Category) (rows : List CatRow) : List ProductEntry :=
  rows.filterMap (fun r =>
    match categorizeRow r with
    | some (c2, e) => if c2 = c then some e else none
    | none => none)

/-- Result dict of `PriceCategorizationTool._run` (the claim-relevant part:
the five category lists and `total_products = len(df)`). -/
structure CategorizedReport where
  licensee_changes : List ProductEntry
  new_skus : List ProductEntry
  permanent_changes : List ProductEntry
  begin_lto : List ProductEntry
  end_lto : List ProductEntry
  total_products : ℕ
deriving DecidableEq

/-- The categorization loop over all rows of the sheet. -/
def categorize (rows : List CatRow) : CategorizedReport :=
  { licensee_changes := entriesOf .licensee rows
    new_skus := entriesOf .newSku rows
    permanent_changes := entriesOf .permanent rows
    begin_lto := entriesOf .beginLTO rows
    end_lto := entriesOf .endLTO rows
    total_products := rows.length }

/-- C1: for a record whose (stripped) sale type is one of the two retail-price
spellings and whose coerced old price is positive, the assigned category is
determined solely by `price_ratio_pct = (new_price / old_price) * 100`, with
closed boundaries at the thresholds: ratio < 96 gives `beginLTO`, ratio > 104
gives `endLTO`, and 96 ≤ ratio ≤ 104 (both endpoints included) gives
`permanent`; no other category can result. -/
theorem retail_thresholds_closed (row : CatRow)
    (hs : pyStrip row.type_of_sale = "TBS – Retail Price" ∨
          pyStrip row.type_of_sale = "TBS - Retail Price")
    (hp : 0 < safe_float row.old_price 0) :
    (categoryOf row = some Category.beginLTO ∨ categoryOf row = some Category.endLTO ∨
      categoryOf row = some Category.permanent) ∧
    ((categoryOf row = some Category.beginLTO) ↔ ratioPctOf row < 96) ∧
    ((categoryOf row = some Category.endLTO) ↔ 104 < ratioPctOf row) ∧
    ((categoryOf row = some Category.permanent) ↔
      (96 ≤ ratioPctOf row ∧ ratioPctOf row ≤ 104)) := by
  have hL : pyStrip row.type_of_sale ≠ "TBS - Licensee" := by
    rcases hs with h | h <;> rw [h] <;> decide
  have hN : pyStrip row.type_of_sale ≠ "New SKU" := by
    rcases hs with h | h <;> rw [h] <;> decide
  have hkey : categoryOf row =
      if ratioPctOf row < 96 then some Category.beginLTO
      else if 104 < ratioPctOf row then some Category.endLTO
      else some Category.permanent := by
    unfold categoryOf categorizeRow
    rw [if_neg hL, if_neg hN, if_pos hs, if_pos hp]
    simp [apply_ite (Option.map Prod.fst), ratioPctOf]
  rw [hkey]
  split_ifs with h1 h2 <;>
    simp only [Option.some.injEq, reduceCtorEq] <;>
    refine ⟨by tauto, ?_, ?_, ?_⟩ <;>
    constructor <;> intro h <;> first
      | exact h1
      | exact h2
      | tauto
      | linarith
      | (exact ⟨by linarith, by linarith⟩)

/-- C1 witness: a retail row with a ratio of exactly 96 percent
(old = 100, new = 96) is a permanent change, not a begin-LTO. -/
theorem retail_thresholds_closed_witness :
    categoryOf ⟨"P", "6x330", "TBS - Retail Price", .num 100, .num 96⟩
      = some Category.permanent := by
  refine ((retail_thresholds_closed _ (Or.inr (by decide)) (by norm_num [safe_float])).2.2.2).mpr ?_
  constructor <;> norm_num [ratioPctOf, safe_float]

/-- Each processed row grows exactly one category list (when its sale type
matches a branch) or none of them (when it matches no branch); summing the
five list lengths therefore counts exactly the matched rows. -/
theorem category_counts_sum (rows : List CatRow) :
    (entriesOf .licensee rows).length + (entriesOf .newSku rows).length +
      (entriesOf .permanent rows).length + (entriesOf .beginLTO rows).length +
      (entriesOf .endLTO rows).length
      = (rows.filter (fun r => (categorizeRow r).isSome)).length := by
  induction rows with
  | nil => rfl
  | cons r rows ih =>
    rcases h : categorizeRow r with _ | ⟨c, e⟩
    · simpa [entriesOf, List.filterMap_cons, List.filter_cons, h] using ih
    · cases c <;> simp [entriesOf, List.filterMap_cons, List.filter_cons, h] at ih ⊢ <;> omega

/-- C2 (amended): classification is a total deterministic function assigning
at most one category per row: `total_products` counts every row; the five
category counts sum to the number of rows whose sale type matches a branch;
a row matches a branch exactly when its stripped sale type is one of the four
recognized strings — a row matching none lands in no category list (there is
no other/unclassified bucket, the row is visible only through
`total_products`); and `TBS - Licensee` / `New SKU` take precedence over the
ratio rules. -/
theorem classification_partition (rows : List CatRow) :
    (categorize rows).total_products = rows.length ∧
    (categorize rows).licensee_changes.length + (categorize rows).new_skus.length +
      (categorize rows).permanent_changes.length + (categorize rows).begin_lto.length +
      (categorize rows).end_lto.length
      = (rows.filter (fun r => (categorizeRow r).isSome)).length ∧
    (∀ row : CatRow, (categorizeRow row).isSome ↔
      (pyStrip row.type_of_sale = "TBS - Licensee" ∨ pyStrip row.type_of_sale = "New SKU" ∨
       pyStrip row.type_of_sale = "TBS – Retail Price" ∨
       pyStrip row.type_of_sale = "TBS - Retail Price")) ∧
    (∀ row : CatRow, pyStrip row.type_of_sale = "TBS - Licensee" →
      categoryOf row = some Category.licensee) ∧
    (∀ row : CatRow, pyStrip row.type_of_sale = "New SKU" →
      categoryOf row = some Category.newSku) := by
  refine ⟨rfl, category_counts_sum rows, ?_, ?_, ?_⟩
  · intro row
    simp only [categorizeRow]
    split_ifs with h1 h2 h3 h4 <;> simp <;> tauto
  · intro row h
    unfold categoryOf categorizeRow
    rw [if_pos h]
    rfl
  · intro row h
    have hL : pyStrip row.type_of_sale ≠ "TBS - Licensee" := by rw [h]; decide
    unfold categoryOf categorizeRow
    rw [if_neg hL, if_pos h]
    rfl

/-- C2 witness: a licensee row is deterministically assigned the licensee
category, and a one-row sheet reports one total product. -/
theorem classification_partition_witness :
    categoryOf ⟨"L", "4", "TBS - Licensee", .num 3, .num 4⟩ = some Category.licensee ∧
    (categorize [⟨"L", "4", "TBS - Licensee", .num 3, .num 4⟩]).total_products = 1 := by
  exact ⟨(classification_partition []).2.2.2.1 _ (by decide),
    (classification_partition [⟨"L", "4", "TBS - Licensee", .num 3, .num 4⟩]).1⟩

/-- C2 counterexample: the row with the unrecognized sale type `"Foo"` lands in
none of the five category lists of the report — the report contains no
other/unclassified bucket for it — while still being counted in
`total_products`.  It is dropped from the categorized output, not reported. -/
theorem unmatched_row_not_reported :
    (categorize [⟨"P", "6x330", "Foo", .num 1, .num 2⟩]).licensee_changes = [] ∧
    (categorize [⟨"P", "6x330", "Foo", .num 1, .num 2⟩]).new_skus = [] ∧
    (categorize [⟨"P", "6x330", "Foo", .num 1, .num 2⟩]).permanent_changes = [] ∧
    (categorize [⟨"P", "6x330", "Foo", .num 1, .num 2⟩]).begin_lto = [] ∧
    (categorize [⟨"P", "6x330", "Foo", .num 1, .num 2⟩]).end_lto = [] ∧
    (categorize [⟨"P", "6x330", "Foo", .num 1, .num 2⟩]).total_products = 1 := by
  decide

/-- C3 (amended): a price cell that cannot be coerced to a finite number is
not excluded from classification: `safe_float` silently replaces it by the
default `0.0`, and the row is categorized exactly as if that price were the
number zero — still contributing its entry to a category list whenever its
sale type matches a branch. -/
theorem noncoercible_price_treated_as_zero (row : CatRow) :
    (¬ coercesToNum row.old_price →
      categorizeRow row = categorizeRow { row with old_price := .num 0 }) ∧
    (¬ coercesToNum row.new_price →
      categorizeRow row = categorizeRow { row with new_price := .num 0 }) := by
  have hnum : safe_float (.num 0) 0 = 0 := rfl
  constructor <;> intro h
  · have h0 : safe_float row.old_price 0 = 0 := by
      cases hv : row.old_price <;> rw [hv] at h <;>
        first
          | rfl
          | exact absurd trivial h
    simp [categorizeRow, h0, hnum]
  · have h0 : safe_float row.new_price 0 = 0 := by
      cases hv : row.new_price <;> rw [hv] at h <;>
        first
          | rfl
          | exact absurd trivial h
    simp [categorizeRow, h0, hnum]

/-- C3 witness: the retail row whose old price cell is the unparsable string
`"N/A"` is categorized exactly as the same row with old price `0`. -/
theorem noncoercible_price_treated_as_zero_witness :
    categorizeRow ⟨"P3", "6", "TBS - Retail Price", .badStr "N/A", .num 5⟩
      = categorizeRow ⟨"P3", "6", "TBS - Retail Price", .num 0, .num 5⟩ := by
  exact (noncoercible_price_treated_as_zero
    ⟨"P3", "6", "TBS - Retail Price", .badStr "N/A", .num 5⟩).1 (by decide)

/-- C3 counterexample: the retail row whose old price cell is the non-numeric
string `"N/A"` is not excluded from the report: `safe_float` zeroes the price
and the row contributes an entry to `permanent_changes` through the zero-base
branch. -/
theorem noncoercible_price_row_contributes :
    (categorize [⟨"P3", "6", "TBS - Retail Price", .badStr "N/A", .num 5⟩]).permanent_changes
      = [{ product := "P3", pack_size := "6", old_price := 0, new_price := 5,
           price_change := 5, price_ratio_pct := some 0,
           note := some "Zero old price - categorized as permanent change" }] := by
  have hA : pyStrip "TBS - Retail Price" = "TBS - Retail Price" := by decide
  have hrow : categorizeRow ⟨"P3", "6", "TBS - Retail Price", .badStr "N/A", .num 5⟩
      = some (Category.permanent,
        { product := "P3", pack_size := "6", old_price := 0, new_price := 5,
          price_change := 5, price_ratio_pct := some 0,
          note := some "Zero old price - categorized as permanent change" }) := by
    have hb : safe_float (PyVal.badStr "N/A") 0 = 0 := rfl
    have h5 : safe_float (PyVal.num 5) 0 = 5 := rfl
    have hp : pyStrip "P3" = "P3" := by decide
    have hq : pyStrip "6" = "6" := by decide
    simp [categorizeRow, hA, hb, h5, hp, hq]
  simp [categorize, entriesOf, List.filterMap_cons, hrow]

/-- C8: a retail-price record whose coerced old price equals zero is
classified as a permanent change through the explicit zero-base branch: no
division is attempted, `price_ratio_pct` is forced to 0 and the zero-base
annotation string is attached to the emitted entry. -/
theorem zero_base_retail_is_permanent (row : CatRow)
    (hs : pyStrip row.type_of_sale = "TBS – Retail Price" ∨
          pyStrip row.type_of_sale = "TBS - Retail Price")
    (hz : safe_float row.old_price 0 = 0) :
    categorizeRow row = some (Category.permanent,
      { product := pyStrip row.product_name, pack_size := pyStrip row.pack_size,
        old_price := 0, new_price := safe_float row.new_price 0,
        price_change := safe_float row.new_price 0,
        price_ratio_pct := some 0,
        note := some "Zero old price - categorized as permanent change" }) := by
  have hL : pyStrip row.type_of_sale ≠ "TBS - Licensee" := by
    rcases hs with h | h <;> rw [h] <;> decide
  have hN : pyStrip row.type_of_sale ≠ "New SKU" := by
    rcases hs with h | h <;> rw [h] <;> decide
  simp only [categorizeRow]
  rw [if_neg hL, if_neg hN, if_pos hs,
    if_neg (by rw [hz]; exact lt_irrefl 0)]
  simp [hz]

/-- C8 witness: the record (old = 0.00, new = 5.00, retail sale type) lands in
the permanent-change category with the zero-base note attached. -/
theorem zero_base_retail_is_permanent_witness :
    categorizeRow ⟨"D", "1", "TBS - Retail Price", .num 0, .num 5⟩
      = some (Category.permanent,
        { product := "D", pack_size := "1", old_price := 0, new_price := 5,
          price_change := 5, price_ratio_pct := some 0,
          note := some "Zero old price - categorized as permanent change" }) := by
  have h := zero_base_retail_is_permanent ⟨"D", "1", "TBS - Retail Price", .num 0, .num 5⟩
    (Or.inr (by decide)) rfl
  simpa [show pyStrip "D" = "D" by decide, show pyStrip "1" = "1" by decide,
    show safe_float (PyVal.num 5) 0 = 5 from rfl] using h

/-- C10: the en-dash spelling `"TBS – Retail Price"` and the ASCII-hyphen
spelling `"TBS - Retail Price"` of the retail sale type are classified
identically for every product and every pair of price cells, and a row whose
stripped sale type is none of the four recognized strings is assigned no
category at all. -/
theorem retail_spellings_equivalent :
    (∀ (product pack : String) (oldv newv : PyVal),
      categorizeRow ⟨product, pack, "TBS – Retail Price", oldv, newv⟩
        = categorizeRow ⟨product, pack, "TBS - Retail Price", oldv, newv⟩) ∧
    (∀ row : CatRow,
      pyStrip row.type_of_sale ≠ "TBS - Licensee" →
      pyStrip row.type_of_sale ≠ "New SKU" →
      pyStrip row.type_of_sale ≠ "TBS – Retail Price" →
      pyStrip row.type_of_sale ≠ "TBS - Retail Price" →
      categorizeRow row = none) := by
  constructor
  · intro product pack oldv newv
    have h1 : pyStrip "TBS – Retail Price" = "TBS – Retail Price" := by decide
    have h2 : pyStrip "TBS - Retail Price" = "TBS - Retail Price" := by decide
    simp [categorizeRow, h1, h2]
  · intro row hL hN hE hA
    simp only [categorizeRow]
    rw [if_neg hL, if_neg hN, if_neg (not_or.mpr ⟨hE, hA⟩)]

/-- C10 witness: the em-dash spelling is recognized by no branch, and the two
recognized dash spellings classify one concrete row identically. -/
theorem retail_spellings_equivalent_witness :
    categorizeRow ⟨"P", "1", "TBS — Retail Price", .num 10, .num 5⟩ = none ∧
    categorizeRow ⟨"P", "1", "TBS – Retail Price", .num 10, .num 5⟩
      = categorizeRow ⟨"P", "1", "TBS - Retail Price", .num 10, .num 5⟩ := by
  exact ⟨retail_spellings_equivalent.2 _ (by decide) (by decide) (by decide) (by decide),
    retail_spellings_equivalent.1 "P" "1" (.num 10) (.num 5)⟩

/-! ## Historical trend analysis (`HistoricalPriceAnalysisTool._run`) -/

/-- Float value produced by pandas `pct_change` on a price series: a finite
value, NaN (from 0/0), or an infinity (from a nonzero numerator over 0). -/
inductive FVal where
  | fin (q : ℚ)
  | nan
  | inf
  | neginf
deriving DecidableEq

/-- One `pct_change` step between two consecutive float prices:
`(cur - prev) / prev * 100` with IEEE semantics when `prev = 0`
(0/0 is NaN, otherwise a signed infinity). -/
def pctChange (prev cur : ℚ) : FVal :=
  if prev = 0 then
    if cur = 0 then .nan
    else if 0 < cur then .inf
    else .neginf
  else .fin ((cur - prev) / prev * 100)

/-- `Series.pct_change` over a whole price series, after dropping the
undefined first-row change (`dropna` removes the leading NaN; the remaining
NaN/infinity semantics are kept in `FVal`). -/
def pctChanges : List ℚ → List FVal
  | a :: b :: rest => pctChange a b :: pctChanges (b :: rest)
  | _ => []

/-- One row of the historical price sheet after pandas parsing:
`week` is the `pd.to_datetime(..., errors="coerce")` result (`none` = NaT),
`price` the `pd.to_numeric(..., errors="coerce")` result (`none` = NaN, e.g.
for a "Delisted" string).  Weeks are modelled as integers (dates are totally
ordered; only their order matters). -/
structure HistRow where
  sku : String
  brand : String
  pack_type : String
  week : Option ℤ
  price : Option ℚ
deriving DecidableEq

/-- A row that survived `dropna(subset=["Week", "Price"])`. -/
structure VRow where
  sku : String
  brand : String
  pack_type : String
  week : ℤ
  price : ℚ
deriving DecidableEq

/-- Keep a row only when both its week and price parsed. -/
def toVRow (r : HistRow) : Option VRow :=
  match r.week, r.price with
  | some w, some p => some ⟨r.sku, r.brand, r.pack_type, w, p⟩
  | _, _ => none

/-- The valid rows of one SKU sorted ascending by week (`sort_values(["SKU",
"Week"])` restricted to one SKU; a stable sort models the unspecified order of
equal weeks). -/
def skuData (rows : List HistRow) (sku : String) : List VRow :=
  List.insertionSort (fun a b => a.week ≤ b.week)
    ((rows.filterMap toVRow).filter (fun r => r.sku = sku))

/-- `sanitize_float` applied to one change value for the `all_changes` output
list: NaN becomes `0.0`, infinities become `None` (JSON null), finite values
pass through. -/
def sanitizeFVal : FVal → Option ℚ
  | .fin q => some q
  | .nan => some 0
  | .inf => none
  | .neginf => none

/-- The claim-relevant fields of one `sku_analysis` entry.  The float summary
statistics (`mean/std/min/max_change_pct`) and the numeric pack attributes are
not modelled: no claim depends on them (`std` is an irrational square root). -/
structure SkuEntry where
  brand : String
  pack_type : String
  total_weeks : ℕ
  total_changes : ℕ
  latest_price : ℚ
  latest_week : ℤ
  all_changes : List (Option ℚ)
deriving DecidableEq

/-- The per-SKU body of the analysis loop: take the SKU's valid sorted rows,
compute the week-over-week changes, drop the NaN ones (`dropna` on the change
series), and emit an entry only when at least one change survives. -/
def analyzeSku (rows : List HistRow) (sku : String) : Option SkuEntry :=
  match skuData rows sku with
  | [] => none
  | first :: rest =>
    let price_changes :=
      (pctChanges ((first :: rest).map VRow.price)).filter (fun c => c ≠ FVal.nan)
    if 0 < price_changes.length then
      some { brand := first.brand
             pack_type := first.pack_type
             total_weeks := (first :: rest).length
             total_changes := price_changes.length
             latest_price := ((first :: rest).getLast (List.cons_ne_nil first rest)).price
             latest_week := ((first :: rest).getLast (List.cons_ne_nil first rest)).week
             all_changes := price_changes.map sanitizeFVal }
    else none

/-- Number of adjacent pairs of consecutive observations whose prices are both
zero — exactly the pairs on which `pct_change` produces NaN (0/0) and the
change series silently loses an element. -/
def consecZeroPairs : List ℚ → ℕ
  | a :: b :: rest => (if a = 0 ∧ b = 0 then 1 else 0) + consecZeroPairs (b :: rest)
  | _ => 0

/-- `pct_change` yields NaN exactly on a 0/0 pair. -/
theorem pctChange_eq_nan (a b : ℚ) : pctChange a b = FVal.nan ↔ (a = 0 ∧ b = 0) := by
  unfold pctChange
  split_ifs with h1 h2 h3 <;> simp_all

/-- After dropping NaNs, a change series over `1 + n` prices has exactly
`n` minus the number of consecutive-zero pairs elements. -/
theorem pctChanges_filter_len (a : ℚ) (l : List ℚ) :
    ((pctChanges (a :: l)).filter (fun c => c ≠ FVal.nan)).length
      + consecZeroPairs (a :: l) = l.length := by
  induction l generalizing a with
  | nil => rfl
  | cons b t ih =>
    have hstep := ih b
    by_cases hab : a = 0 ∧ b = 0
    · have hnan : pctChange a b = FVal.nan := (pctChange_eq_nan a b).mpr hab
      simp only [pctChanges, consecZeroPairs, List.filter_cons, hnan, if_pos hab] at *
      simp at *
      omega
    · have hnn : pctChange a b ≠ FVal.nan := fun hc => hab ((pctChange_eq_nan a b).mp hc)
      simp only [pctChanges, consecZeroPairs, List.filter_cons, if_neg hab] at *
      simp [hnn] at *
      omega

/-- C4 (amended): a SKU with at most one valid observation gets no statistics
entry; when an entry is emitted, `total_weeks` counts the SKU's valid rows and
`all_changes` has length `total_weeks - 1` minus one element for every
consecutive pair of zero prices (whose 0/0 change is NaN and is dropped); in
particular the claimed `len(all_changes) = total_weeks - 1` holds exactly when
the valid price series has no two consecutive zeros. -/
theorem trend_entry_lengths (rows : List HistRow) (sku : String) :
    ((skuData rows sku).length ≤ 1 → analyzeSku rows sku = none) ∧
    (∀ e, analyzeSku rows sku = some e →
      e.total_weeks = (skuData rows sku).length ∧
      e.all_changes.length + consecZeroPairs ((skuData rows sku).map VRow.price)
        = e.total_weeks - 1 ∧
      (consecZeroPairs ((skuData rows sku).map VRow.price) = 0 →
        e.all_changes.length = e.total_weeks - 1)) := by
  rcases h : skuData rows sku with _ | ⟨first, rest⟩
  · refine ⟨fun _ => by simp [analyzeSku, h], fun e he => ?_⟩
    simp [analyzeSku, h] at he
  · constructor
    · intro hlen
      have hrest : rest = [] := by
        cases rest with
        | nil => rfl
        | cons x xs => simp at hlen
      subst hrest
      simp [analyzeSku, h, pctChanges]
    · intro e he
      simp only [analyzeSku, h] at he
      split_ifs at he with hpos
      have hmap : (first :: rest).map VRow.price = first.price :: rest.map VRow.price :=
        rfl
      have hkey := pctChanges_filter_len first.price (rest.map VRow.price)
      rcases Option.some.inj he with rfl
      refine ⟨rfl, ?_, ?_⟩
      · simp only [List.length_map, List.length_cons, hmap] at hkey ⊢
        omega
      · intro hz
        simp only [hmap] at hz
        simp only [List.length_map, List.length_cons, hmap] at hkey ⊢
        omega

/-- C4 counterexample: for the SKU "A" with three valid rows and prices
0, 0, 5, an entry is emitted with `total_weeks = 3` but `all_changes` of
length 1 (the 0/0 change is NaN and is dropped), violating
`len(all_changes) = total_weeks - 1 = 2`. -/
theorem zero_prices_break_length_invariant :
    (analyzeSku
        [⟨"A", "B1", "can", some 1, some 0⟩,
         ⟨"A", "B1", "can", some 2, some 0⟩,
         ⟨"A", "B1", "can", some 3, some 5⟩] "A").map SkuEntry.total_weeks = some 3 ∧
    (analyzeSku
        [⟨"A", "B1", "can", some 1, some 0⟩,
         ⟨"A", "B1", "can", some 2, some 0⟩,
         ⟨"A", "B1", "can", some 3, some 5⟩] "A").map
      (fun e => e.all_changes.length) = some 1 := by
  decide

/-- C4 witness: for a SKU with two valid rows whose prices contain no
consecutive-zero pair, the emitted entry satisfies
`len(all_changes) = total_weeks - 1`. -/
theorem trend_entry_lengths_witness :
    ∃ e, analyzeSku [⟨"S", "b", "t", some 1, some 0⟩, ⟨"S", "b", "t", some 2, some 5⟩] "S"
        = some e ∧
      e.all_changes.length = e.total_weeks - 1 := by
  have h : analyzeSku [⟨"S", "b", "t", some 1, some 0⟩, ⟨"S", "b", "t", some 2, some 5⟩] "S"
      = some ⟨"b", "t", 2, 1, 5, 2, [none]⟩ := by decide
  exact ⟨_, h,
    ((trend_entry_lengths [⟨"S", "b", "t", some 1, some 0⟩,
      ⟨"S", "b", "t", some 2, some 5⟩] "S").2 _ h).2.2 (by decide)⟩

/-- C9 (amended): the per-SKU price series is sorted ascending by week, but
duplicate weeks are NOT de-duplicated: every valid observation of the SKU is
kept (per-week multiplicities are preserved), and consecutive changes are
computed across all retained observations, including same-week duplicates. -/
theorem series_sorted_duplicates_kept (rows : List HistRow) (sku : String) :
    List.Sorted (fun a b : VRow => a.week ≤ b.week) (skuData rows sku) ∧
    ∀ w : ℤ, ((skuData rows sku).map VRow.week).count w
      = (((rows.filterMap toVRow).filter (fun r => r.sku = sku)).map VRow.week).count w := by
  constructor
  · haveI : IsTotal VRow (fun a b => a.week ≤ b.week) := ⟨fun a b => le_total a.week b.week⟩
    haveI : IsTrans VRow (fun a b => a.week ≤ b.week) :=
      ⟨fun a b c hab hbc => le_trans hab hbc⟩
    exact List.sorted_insertionSort _ _
  · intro w
    have hp : (skuData rows sku).Perm
        ((rows.filterMap toVRow).filter (fun r => r.sku = sku)) :=
      List.perm_insertionSort _ _
    exact (hp.map VRow.week).count_eq w

/-- C9 counterexample: the SKU "B" has two valid rows with the same week 5;
both observations are kept in the series (week 5 appears twice — no
de-duplication) and a week-over-week change is computed between the two
same-week rows. -/
theorem duplicate_weeks_kept :
    ((skuData [⟨"B", "b", "t", some 5, some 1⟩, ⟨"B", "b", "t", some 5, some 2⟩] "B").map
        VRow.week) = [5, 5] ∧
    (analyzeSku [⟨"B", "b", "t", some 5, some 1⟩, ⟨"B", "b", "t", some 5, some 2⟩] "B").map
        SkuEntry.total_changes = some 1 ∧
    (analyzeSku [⟨"B", "b", "t", some 5, some 1⟩, ⟨"B", "b", "t", some 5, some 2⟩] "B").map
        SkuEntry.total_weeks = some 2 := by
  decide

/-! ## Price forecasting (`PriceForecastingTool._run`) -/

noncomputable section

/-- `np.linspace(-1, 0, n)`: `n` evenly spaced points from -1 to 0 inclusive
(`[-1.0]` for `n = 1`, empty for `n = 0`). -/
def linspaceNeg1To0 (n : ℕ) : List ℝ :=
  if n = 1 then [-1]
  else (List.range n).map (fun i : ℕ => -1 + (i : ℝ) / ((n : ℝ) - 1))

/-- `np.exp(np.linspace(-1, 0, n))`: the raw exponential recency weights. -/
def expWeights (n : ℕ) : List ℝ :=
  (linspaceNeg1To0 n).map Real.exp

/-- `weights /= weights.sum()`: the normalized recency weights. -/
def normWeights (n : ℕ) : List ℝ :=
  (expWeights n).map (fun w => w / (expWeights n).sum)

/-- `np.average(values, weights=ws) = (Σ valuesᵢ · wsᵢ) / (Σ wsᵢ)`. -/
def npAverage (values ws : List ℝ) : ℝ :=
  (List.zipWith (fun v w => v * w) values ws).sum / ws.sum

/-- One `sku_analysis` entry as the forecaster reads it back (after its own
`safe_float` pass on the scalar fields): `all_changes` may contain `None`
entries (sanitized infinities), which the forecaster filters out before
counting changes. -/
structure SkuStats where
  brand : String
  pack_type : String
  latest_price : ℝ
  mean_change_pct : ℝ
  std_change_pct : ℝ
  all_changes : List (Option ℝ)

/-- One emitted forecast record (claim-relevant fields). -/
structure ForecastEntry where
  brand : String
  pack_type : String
  current_price : ℝ
  forecasted_price : ℝ
  forecasted_change_pct : ℝ
  historical_mean_change_pct : ℝ
  historical_std_change_pct : ℝ

/-- The forecasted change: exponentially weighted average of the last (at
most) 8 changes when at least 3 changes exist, the plain historical mean when
at least one change exists, and `0.0` when no changes exist. -/
def forecastChangePct (all_changes : List ℝ) (mean_change : ℝ) : ℝ :=
  if 3 ≤ all_changes.length then
    let recent_changes := all_changes.drop (all_changes.length - 8)
    npAverage recent_changes (normWeights recent_changes.length)
  else if 0 < all_changes.length then mean_change
  else 0

/-- Per-SKU body of the forecasting loop: skip the SKU when
`latest_price == 0`, otherwise emit a forecast scaled from the latest
price by the forecasted change. -/
def forecastSku (stats : SkuStats) : Option ForecastEntry :=
  let all_changes := stats.all_changes.filterMap id
  if stats.latest_price = 0 then none
  else
    let fc := forecastChangePct all_changes stats.mean_change_pct
    some { brand := stats.brand
           pack_type := stats.pack_type
           current_price := stats.latest_price
           forecasted_price := stats.latest_price * (1 + fc / 100)
           forecasted_change_pct := fc
           historical_mean_change_pct := stats.mean_change_pct
           historical_std_change_pct := stats.std_change_pct }

end

/-- The weight lists have one weight per point. -/
theorem length_expWeights (n : ℕ) : (expWeights n).length = n := by
  unfold expWeights linspaceNeg1To0
  split_ifs with h
  · simp [h]
  · rw [List.length_map, List.length_map, List.length_range]

/-- Every raw exponential weight is positive. -/
theorem expWeights_mem_pos (n : ℕ) : ∀ w ∈ expWeights n, 0 < w := by
  intro w hw
  unfold expWeights at hw
  rcases List.mem_map.mp hw with ⟨x, _, rfl⟩
  exact Real.exp_pos x

/-- For at least one point, the raw weights have a positive sum. -/
theorem expWeights_sum_pos (n : ℕ) (h : n ≠ 0) : 0 < (expWeights n).sum := by
  apply List.sum_pos _ (expWeights_mem_pos n)
  intro hnil
  exact h (by simpa [hnil] using (length_expWeights n).symm)

/-- Sum of a list divided elementwise by a constant. -/
theorem sum_map_div (l : List ℝ) (c : ℝ) :
    (l.map (fun x => x / c)).sum = l.sum / c := by
  induction l with
  | nil => simp
  | cons a as ih => simp [ih, add_div]

/-- The normalized weights sum to 1 (for at least one point). -/
theorem normWeights_sum (n : ℕ) (h : n ≠ 0) : (normWeights n).sum = 1 := by
  unfold normWeights
  rw [sum_map_div]
  exact div_self (ne_of_gt (expWeights_sum_pos n h))

/-- Elementwise product against constant-scaled weights. -/
theorem zipWith_mul_map_div (values w : List ℝ) (c : ℝ) :
    List.zipWith (fun v x => v * x) values (w.map (fun x => x / c))
      = (List.zipWith (fun v x => v * x) values w).map (fun x => x / c) := by
  induction values generalizing w with
  | nil => simp
  | cons a as ih =>
    cases w with
    | nil => simp
    | cons b bs => simp [ih, mul_div_assoc]

/-- `np.average` against the normalized weights equals `np.average` against
the raw exponential weights (the normalizing constant cancels). -/
theorem npAverage_normWeights (values : List ℝ) (n : ℕ) (h : n ≠ 0) :
    npAverage values (normWeights n) = npAverage values (expWeights n) := by
  unfold npAverage normWeights
  rw [zipWith_mul_map_div, sum_map_div, sum_map_div,
    div_self (ne_of_gt (expWeights_sum_pos n h)), div_one]

/-- The linspace points increase left to right. -/
theorem linspace_sorted (n : ℕ) :
    List.Sorted (fun x y : ℝ => x ≤ y) (linspaceNeg1To0 n) := by
  unfold linspaceNeg1To0
  split_ifs with h
  · simp
  · rcases Nat.eq_zero_or_pos n with h0 | h0
    · simp [h0]
    · have h2 : 2 ≤ n := by omega
      refine List.pairwise_map.mpr ((List.pairwise_lt_range n).imp ?_)
      intro i j hij
      have hden : (0 : ℝ) < (n : ℝ) - 1 := by
        have : (2 : ℝ) ≤ (n : ℝ) := by exact_mod_cast h2
        linarith
      have hij2 : (i : ℝ) ≤ (j : ℝ) := by exact_mod_cast Nat.le_of_lt hij
      have hdiv : (i : ℝ) / ((n : ℝ) - 1) ≤ (j : ℝ) / ((n : ℝ) - 1) := by gcongr
      linarith

/-- The normalized recency weights increase left to right: the most recent
change (last position) carries the largest weight. -/
theorem normWeights_sorted (n : ℕ) :
    List.Sorted (fun x y : ℝ => x ≤ y) (normWeights n) := by
  rcases Nat.eq_zero_or_pos n with h0 | h0
  · have hnil : expWeights n = [] :=
      List.length_eq_zero.mp (by simp [length_expWeights, h0])
    simp [normWeights, hnil]
  · have hS : 0 < (expWeights n).sum := expWeights_sum_pos n (by omega)
    have h2 : List.Sorted (fun x y : ℝ => x ≤ y) (expWeights n) := by
      unfold expWeights
      refine List.pairwise_map.mpr ((linspace_sorted n).imp ?_)
      exact fun hab => Real.exp_le_exp.mpr hab
    unfold normWeights
    refine List.pairwise_map.mpr (h2.imp ?_)
    exact fun {a b} hab => (div_le_div_iff_of_pos_right hS).mpr hab

/-- C5 (amended): the forecaster skips a SKU exactly when `latest_price == 0`.
For an emitted forecast, `forecasted_price = latest_price * (1 +
forecasted_change_pct / 100)`; writing `n` for the number of non-null recorded
changes, `forecasted_change_pct` is the recency-weighted average of the most
recent `min n 8` changes using weights `exp(linspace(-1, 0, m))` — normalized
to sum to 1 and increasing toward the most recent change — when `n ≥ 3`, and
the plain historical mean change when `n` is 1 or 2.  A SKU with zero changes
is NOT skipped: it receives a forecast with change `0.0` (unchanged price). -/
theorem forecast_rule (stats : SkuStats) :
    (stats.latest_price = 0 → forecastSku stats = none) ∧
    (stats.latest_price ≠ 0 →
      ∃ e, forecastSku stats = some e ∧
        e.current_price = stats.latest_price ∧
        e.forecasted_price = stats.latest_price * (1 + e.forecasted_change_pct / 100) ∧
        (3 ≤ (stats.all_changes.filterMap id).length →
          e.forecasted_change_pct
            = npAverage
                ((stats.all_changes.filterMap id).drop
                  ((stats.all_changes.filterMap id).length - 8))
                (expWeights (min (stats.all_changes.filterMap id).length 8)) ∧
          (normWeights (min (stats.all_changes.filterMap id).length 8)).sum = 1 ∧
          List.Sorted (fun x y : ℝ => x ≤ y)
            (normWeights (min (stats.all_changes.filterMap id).length 8))) ∧
        ((stats.all_changes.filterMap id).length = 1 ∨
            (stats.all_changes.filterMap id).length = 2 →
          e.forecasted_change_pct = stats.mean_change_pct) ∧
        ((stats.all_changes.filterMap id).length = 0 →
          e.forecasted_change_pct = 0)) := by
  constructor
  · intro h0
    simp [forecastSku, h0]
  · intro hne
    refine ⟨{ brand := stats.brand, pack_type := stats.pack_type,
              current_price := stats.latest_price,
              forecasted_price := stats.latest_price *
                (1 + forecastChangePct (stats.all_changes.filterMap id)
                  stats.mean_change_pct / 100),
              forecasted_change_pct :=
                forecastChangePct (stats.all_changes.filterMap id) stats.mean_change_pct,
              historical_mean_change_pct := stats.mean_change_pct,
              historical_std_change_pct := stats.std_change_pct },
      by simp [forecastSku, hne], rfl, rfl, ?_, ?_, ?_⟩
    · intro h3
      have hlen : ((stats.all_changes.filterMap id).drop
          ((stats.all_changes.filterMap id).length - 8)).length
          = min (stats.all_changes.filterMap id).length 8 := by
        rw [List.length_drop]
        omega
      have hm : min (stats.all_changes.filterMap id).length 8 ≠ 0 := by omega
      simp only [forecastChangePct]
      rw [if_pos h3, hlen]
      exact ⟨npAverage_normWeights _ _ hm, normWeights_sum _ hm, normWeights_sorted _⟩
    · intro h12
      have hn3 : ¬ 3 ≤ (stats.all_changes.filterMap id).length := by
        rcases h12 with h | h <;> omega
      have hn0 : 0 < (stats.all_changes.filterMap id).length := by
        rcases h12 with h | h <;> omega
      simp only [forecastChangePct]
      rw [if_neg hn3, if_pos hn0]
    · intro h0
      have hn3 : ¬ 3 ≤ (stats.all_changes.filterMap id).length := by omega
      have hn0 : ¬ 0 < (stats.all_changes.filterMap id).length := by omega
      simp only [forecastChangePct]
      rw [if_neg hn3, if_neg hn0]

/-- C5 witness: for a SKU with latest price 4 and exactly two recorded
changes, the emitted forecast uses the plain historical mean change and
scales the latest price by it. -/
theorem forecast_rule_witness :
    ∃ e, forecastSku ⟨"b", "t", 4, 3, 1, [some 1, some 2]⟩ = some e ∧
      e.forecasted_change_pct = 3 ∧
      e.forecasted_price = 4 * (1 + e.forecasted_change_pct / 100) := by
  obtain ⟨e, he, hcur, hprice, hewma, hmean, hzero⟩ :=
    (forecast_rule ⟨"b", "t", 4, 3, 1, [some 1, some 2]⟩).2 (by norm_num)
  exact ⟨e, he, (hmean (Or.inr (by simp))).trans rfl, hprice⟩

/-- C5 counterexample: a SKU whose stats carry zero recorded changes (and a
nonzero latest price 5) is not skipped: the forecaster emits a forecast with
`forecasted_change_pct = 0` and `forecasted_price = 5`. -/
theorem zero_changes_still_forecasted :
    forecastSku ⟨"b", "t", 5, 2, 1, []⟩ = some ⟨"b", "t", 5, 5, 0, 2, 1⟩ := by
  have h5 : (5 : ℝ) ≠ 0 := by norm_num
  simp [forecastSku, forecastChangePct, h5]

/-! ## Anomaly ranking (`AnomalyDetectionTool._run`) -/

/-- One forecast record as the anomaly detector reads it back (after its own
`safe_float` pass on the scalar fields). -/
structure AForecast where
  brand : String
  pack_type : String
  current_price : ℚ
  forecasted_price : ℚ
  forecasted_change_pct : ℚ
  historical_mean_change_pct : ℚ
  historical_std_change_pct : ℚ
deriving DecidableEq

/-- One emitted anomaly record (claim-relevant fields; the `significance`
label is a string rendering of `z_score` and is not modelled). -/
structure AnomalyEntry where
  sku : String
  brand : String
  pack_type : String
  current_price : ℚ
  forecasted_price : ℚ
  price_change_dollars : ℚ
  forecasted_change_pct : ℚ
  historical_mean_change_pct : ℚ
  historical_std_change_pct : ℚ
  z_score : ℚ
deriving DecidableEq

/-- Per-SKU body of the anomaly loop: emit an entry only when the historical
standard deviation is strictly positive (avoiding the division by zero), with
`z_score = abs((forecasted_change - historical_mean) / historical_std)`. -/
def mkAnomalyEntry (sku : String) (f : AForecast) : Option AnomalyEntry :=
  if 0 < f.historical_std_change_pct then
    some { sku := sku
           brand := f.brand
           pack_type := f.pack_type
           current_price := f.current_price
           forecasted_price := f.forecasted_price
           price_change_dollars := f.forecasted_price - f.current_price
           forecasted_change_pct := f.forecasted_change_pct
           historical_mean_change_pct := f.historical_mean_change_pct
           historical_std_change_pct := f.historical_std_change_pct
           z_score := |(f.forecasted_change_pct - f.historical_mean_change_pct)
             / f.historical_std_change_pct| }
  else none

/-- Result dict of `AnomalyDetectionTool._run` (claim-relevant part). -/
structure AnomalyResult where
  top_10_notable_changes : List AnomalyEntry
  total_anomalies_detected : ℕ
  threshold_used : ℚ
deriving DecidableEq

/-- The anomaly loop over the forecasts mapping (a list of (sku, forecast)
pairs in dict order): build entries, sort them by `z_score` descending
(`list.sort(key=..., reverse=True)` is stable, modelled by a stable insertion
sort), keep the first 10, and echo the `threshold_sigma` parameter back. -/
def detectAnomalies (forecasts : List (String × AForecast))
    (threshold_sigma : ℚ) : AnomalyResult :=
  let anomalies := forecasts.filterMap (fun p => mkAnomalyEntry p.1 p.2)
  let sorted := List.insertionSort
    (fun a b : AnomalyEntry => b.z_score ≤ a.z_score) anomalies
  { top_10_notable_changes := sorted.take 10
    total_anomalies_detected := anomalies.length
    threshold_used := threshold_sigma }

/-- Exactly the forecasts with positive standard deviation yield entries. -/
theorem anomalies_length (forecasts : List (String × AForecast)) :
    (forecasts.filterMap (fun p => mkAnomalyEntry p.1 p.2)).length
      = (forecasts.filter (fun p => 0 < p.2.historical_std_change_pct)).length := by
  induction forecasts with
  | nil => rfl
  | cons p ps ih =>
    by_cases hp : 0 < p.2.historical_std_change_pct
    · obtain ⟨e, he⟩ : ∃ e, mkAnomalyEntry p.1 p.2 = some e :=
        ⟨_, by rw [mkAnomalyEntry, if_pos hp]⟩
      simp [List.filterMap_cons, List.filter_cons, he, hp, ih]
    · have he : mkAnomalyEntry p.1 p.2 = none := by
        rw [mkAnomalyEntry, if_neg hp]
      simp [List.filterMap_cons, List.filter_cons, he, hp, ih]

/-- C6: every emitted top entry has a strictly positive historical standard
deviation and carries `z_score = |forecasted_change_pct -
historical_mean_change_pct| / historical_std_change_pct`; the output list is
sorted by `z_score` descending; its length is the number of positive-std
forecasts capped at 10 (fewer when fewer exist, never padded). -/
theorem anomaly_ranking (forecasts : List (String × AForecast)) (t : ℚ) :
    (∀ e ∈ (detectAnomalies forecasts t).top_10_notable_changes,
      0 < e.historical_std_change_pct ∧
      e.z_score = |e.forecasted_change_pct - e.historical_mean_change_pct|
        / e.historical_std_change_pct) ∧
    List.Sorted (fun a b : AnomalyEntry => b.z_score ≤ a.z_score)
      (detectAnomalies forecasts t).top_10_notable_changes ∧
    (detectAnomalies forecasts t).top_10_notable_changes.length
      = min 10 (forecasts.filter (fun p => 0 < p.2.historical_std_change_pct)).length ∧
    (detectAnomalies forecasts t).top_10_notable_changes.length ≤ 10 := by
  refine ⟨?_, ?_, ?_, ?_⟩
  · intro e he
    have he2 : e ∈ List.insertionSort
        (fun a b : AnomalyEntry => b.z_score ≤ a.z_score)
        (forecasts.filterMap (fun p => mkAnomalyEntry p.1 p.2)) :=
      List.take_subset 10 _ he
    have he3 : e ∈ forecasts.filterMap (fun p => mkAnomalyEntry p.1 p.2) :=
      (List.perm_insertionSort _ _).subset he2
    rcases List.mem_filterMap.mp he3 with ⟨p, _, hmk⟩
    unfold mkAnomalyEntry at hmk
    split_ifs at hmk with hstd
    rcases Option.some.inj hmk with rfl
    refine ⟨hstd, ?_⟩
    rw [abs_div, abs_of_pos hstd]
  · haveI : IsTotal AnomalyEntry (fun a b => b.z_score ≤ a.z_score) :=
      ⟨fun a b => le_total b.z_score a.z_score⟩
    haveI : IsTrans AnomalyEntry (fun a b => b.z_score ≤ a.z_score) :=
      ⟨fun a b c hab hbc => le_trans hbc hab⟩
    exact (List.sorted_insertionSort _ _).sublist (List.take_sublist 10 _)
  · show (List.take 10 _).length = _
    rw [List.length_take, (List.perm_insertionSort _ _).length_eq, anomalies_length]
  · show (List.take 10 _).length ≤ 10
    rw [List.length_take]
    omega

/-- C6 witness: on a concrete forecasts mapping with one zero-std SKU and one
positive-std SKU, exactly one entry is emitted (the zero-std SKU is excluded,
and nothing is padded up to 10). -/
theorem anomaly_ranking_witness :
    (detectAnomalies
        [("A", ⟨"b", "t", 1, 1, 1, 1, 0⟩), ("B", ⟨"b", "t", 1, 1, 4, 1, 2⟩)]
        2).top_10_notable_changes.length = 1 := by
  rw [(anomaly_ranking
    [("A", ⟨"b", "t", 1, 1, 1, 1, 0⟩), ("B", ⟨"b", "t", 1, 1, 4, 1, 2⟩)] 2).2.2.1]
  decide

/-- C7: the `threshold_sigma` parameter has no effect on the emitted entries
or the detected count — two runs on the same forecasts with different
thresholds produce identical `top_10_notable_changes` and
`total_anomalies_detected`; the parameter is only echoed back as
`threshold_used`. -/
theorem threshold_sigma_inert (forecasts : List (String × AForecast)) (t1 t2 : ℚ) :
    (detectAnomalies forecasts t1).top_10_notable_changes
      = (detectAnomalies forecasts t2).top_10_notable_changes ∧
    (detectAnomalies forecasts t1).total_anomalies_detected
      = (detectAnomalies forecasts t2).total_anomalies_detected ∧
    (detectAnomalies forecasts t1).threshold_used = t1 :=
  ⟨rfl, rfl, rfl⟩

end Revman
